import Mathlib

/-!
Verification development for the osu-map-analyzer-lib pattern-detection core
(`src/utils.rs`, `src/analyze/jump.rs`, `src/analyze/stream.rs`).

The Rust code computes with `f64`.  We shallowly embed `f64` as the type `F`
below: a rational number (exact arithmetic; decimal literals such as `0.4` are
modelled as the exact rationals they denote, and rounding error of binary
floating point is outside the model) together with the IEEE special values
`inf`, `ninf` (negative infinity) and `nan`.  The arithmetic, comparison,
`min`/`max` (Rust `f64::min` / `f64::max` semantics: a NaN argument yields the
other argument) and `total_cmp` orderings follow the IEEE rules on the special
values.  Signed zero is conflated with zero.
-/

namespace Osu

/-- Model of `f64`: an exact rational, or one of the IEEE special values. -/
inductive F where
  | fin : ℚ → F
  | inf : F
  | ninf : F
  | nan : F
deriving DecidableEq, Repr

namespace F

/-- IEEE addition on the model (exact on finite values). -/
def add : F → F → F
  | nan, _ => nan
  | _, nan => nan
  | inf, ninf => nan
  | ninf, inf => nan
  | inf, _ => inf
  | _, inf => inf
  | ninf, _ => ninf
  | _, ninf => ninf
  | fin a, fin b => fin (a + b)

/-- IEEE subtraction on the model (exact on finite values). -/
def sub : F → F → F
  | nan, _ => nan
  | _, nan => nan
  | inf, inf => nan
  | ninf, ninf => nan
  | inf, _ => inf
  | ninf, _ => ninf
  | _, inf => ninf
  | _, ninf => inf
  | fin a, fin b => fin (a - b)

/-- IEEE multiplication on the model (exact on finite values). -/
def mul : F → F → F
  | nan, _ => nan
  | _, nan => nan
  | inf, inf => inf
  | inf, ninf => ninf
  | ninf, inf => ninf
  | ninf, ninf => inf
  | inf, fin b => if 0 < b then inf else if b < 0 then ninf else nan
  | fin a, inf => if 0 < a then inf else if a < 0 then ninf else nan
  | ninf, fin b => if 0 < b then ninf else if b < 0 then inf else nan
  | fin a, ninf => if 0 < a then ninf else if a < 0 then inf else nan
  | fin a, fin b => fin (a * b)

/-- IEEE division on the model: `x / 0` is `nan` for `x = 0` and a signed
infinity otherwise (the sign of zero is not modelled, so `x / -0` is treated
like `x / +0`). -/
def div : F → F → F
  | nan, _ => nan
  | _, nan => nan
  | inf, inf => nan
  | inf, ninf => nan
  | ninf, inf => nan
  | ninf, ninf => nan
  | inf, fin b => if b < 0 then ninf else inf
  | ninf, fin b => if b < 0 then inf else ninf
  | fin _, inf => fin 0
  | fin _, ninf => fin 0
  | fin a, fin b =>
      if b = 0 then (if a = 0 then nan else if 0 < a then inf else ninf)
      else fin (a / b)

/-- `f64::abs`. -/
def abs : F → F
  | fin a => fin |a|
  | inf => inf
  | ninf => inf
  | nan => nan

/-- `f64::min`: if one argument is NaN the other argument is returned. -/
def min : F → F → F
  | nan, b => b
  | a, nan => a
  | ninf, _ => ninf
  | _, ninf => ninf
  | inf, b => b
  | a, inf => a
  | fin a, fin b => fin (Min.min a b)

/-- `f64::max`: if one argument is NaN the other argument is returned. -/
def max : F → F → F
  | nan, b => b
  | a, nan => a
  | inf, _ => inf
  | _, inf => inf
  | ninf, b => b
  | a, ninf => a
  | fin a, fin b => fin (Max.max a b)

/-- IEEE `<=` as a boolean: any comparison with NaN is false. -/
def le : F → F → Bool
  | nan, _ => false
  | _, nan => false
  | ninf, _ => true
  | _, ninf => false
  | _, inf => true
  | inf, _ => false
  | fin a, fin b => decide (a ≤ b)

/-- `f64::total_cmp` as a boolean "less or equal" (negative NaN is not
modelled): `ninf < fin _ < inf < nan`. -/
def totalLe : F → F → Bool
  | _, nan => true
  | nan, _ => false
  | ninf, _ => true
  | _, ninf => false
  | _, inf => true
  | inf, _ => false
  | fin a, fin b => decide (a ≤ b)

end F

/-- Rust `f64::round` (half away from zero), on the rationals. -/
def roundAway (q : ℚ) : ℤ :=
  if 0 ≤ q then ⌊q + 1 / 2⌋ else ⌈q - 1 / 2⌉

/-- The beat-length quantization `(1000.0 * beat_len).round() / 1000.0` of
`BeatLenDuration::add` (src/utils.rs). -/
def quantize : F → F
  | F.fin q => F.fin ((roundAway (1000 * q) : ℚ) / 1000)
  | x => x

/-- `iter().sum::<f64>()`: left fold of addition starting from `0.0`. -/
def sumF (l : List F) : F := l.foldl F.add (F.fin 0)

/-- A note event.  `rosu_map::section::hit_objects::HitObject` is an external
collaborator of this crate; following the spec's data model (`NoteEvent`) it is
embedded by its onset time, end time and planar position. -/
structure HitObject where
  start_time : F
  end_time : F
  pos_x : ℚ
  pos_y : ℚ
deriving DecidableEq, Repr

/-- A tempo segment (`rosu_map::section::timing_points::TimingPoint`): start
time and beat length in milliseconds. -/
structure TimingPoint where
  time : F
  beat_len : F
deriving DecidableEq, Repr

/-- The part of `rosu_map::Beatmap` the analyzers read: the ordered hit
objects and the ordered timing points. -/
structure Beatmap where
  hit_objects : List HitObject
  timing_points : List TimingPoint
deriving DecidableEq, Repr

/-- `BeatLenDuration`'s map, as an association list from quantized beat length
(the `f64` bit pattern key is represented by the value itself) to accumulated
duration.  `HashMap` iteration order is not modelled: the list keeps insertion
order, which only matters for breaking ties in `max_by`. -/
def mapUpdate : List (F × F) → F → (F → F) → List (F × F)
  | [], key, g => [(key, g (F.fin 0))]
  | (k, v) :: rest, key, g =>
      if k = key then (k, g v) :: rest else (k, v) :: mapUpdate rest key g

/-- `BeatLenDuration::add` (src/utils.rs lines 51-58): quantize the beat
length, insert a zero entry if absent (`or_default`), and accumulate
`next_time - curr_time` only when `curr_time <= last_time`. -/
def bldAdd (last_time : F) (m : List (F × F)) (beat_len curr_time next_time : F) :
    List (F × F) :=
  mapUpdate m (quantize beat_len)
    (fun v => if F.le curr_time last_time then F.add v (F.sub next_time curr_time) else v)

/-- `Iterator::max_by` with `f64::total_cmp` on the accumulated durations:
the fold keeps the later element on ties, as `max_by` does. -/
def maxByVal (m : List (F × F)) : Option (F × F) :=
  m.foldl (fun acc p =>
    match acc with
    | none => some p
    | some q => if F.totalLe q.2 p.2 then some p else some q) none

/-- `bpm` (src/utils.rs lines 5-36): reduce the tempo timeline to the beat
length active for the longest total duration, convert to BPM and floor at
`1.0`. -/
def bpm (last_hit_object : Option HitObject) (timing_points : List TimingPoint) : F :=
  let last_time :=
    match last_hit_object with
    | some h => h.end_time
    | none =>
        match timing_points.getLast? with
        | some t => t.time
        | none => F.fin 0
  let m1 :=
    match timing_points with
    | [curr] => bldAdd last_time [] curr.beat_len (F.fin 0) last_time
    | curr :: next :: _ => bldAdd last_time [] curr.beat_len (F.fin 0) next.time
    | [] => []
  let pairs := (timing_points.drop 1).zip ((timing_points.drop 2).map (fun t => t.time))
  let m2 := pairs.foldl (fun m p => bldAdd last_time m p.1.beat_len p.1.time p.2) m1
  let m3 :=
    match timing_points with
    | _ :: _ :: _ =>
        match timing_points.getLast? with
        | some curr => bldAdd last_time m2 curr.beat_len curr.time last_time
        | none => m2
    | _ => m2
  let most_common_beat_len := (maxByVal m3).elim (F.fin 0) (fun p => p.1)
  F.max (F.div (F.fin 60000) most_common_beat_len) (F.fin 1)

/-- Modelled from the spec: `calculate_distance` (the planar Euclidean
distance between two note positions) is imported by jump.rs from
`crate::utils` but is absent from the given sources; the spec lists it as a
trivial external primitive.  The only use is the gate `distance >= 120.0`,
which for a Euclidean distance is equivalent to the squared distance being at
least `120^2 = 14400`, stated here without square roots. -/
def distGate (o1 o2 : HitObject) : Bool :=
  decide (14400 ≤ (o2.pos_x - o1.pos_x) ^ 2 + (o2.pos_y - o1.pos_y) ^ 2)

/-- The onset gap `obj2.start_time - obj1.start_time` of a consecutive pair. -/
def gapF (p : HitObject × HitObject) : F := F.sub p.2.start_time p.1.start_time

/-- `window.windows(2)` as the list of consecutive pairs. -/
def pairsOf (l : List HitObject) : List (HitObject × HitObject) := l.zip l.tail

/-- State of the run-detection scan: flushed run lengths, the gaps of the run
in progress (`curr_jump` / `current_stream`), and the jitter samples
(`bpm_variations`). -/
structure ScanState where
  lengths : List ℕ
  curr : List F
  vars : List F
deriving DecidableEq, Repr

/-- One step of `Stream::analyze_window` (src/analyze/stream.rs lines
139-153): accept the pair when the gap is within 10% of the expected interval,
recording a jitter sample against the previous gap of the run; otherwise flush
a nonempty run in progress. -/
def streamStep (expected : F) (st : ScanState) (p : HitObject × HitObject) : ScanState :=
  let td := gapF p
  if F.le (F.div (F.abs (F.sub td expected)) expected) (F.fin (1 / 10)) then
    let curr' := st.curr ++ [td]
    let vars' :=
      if 1 < curr'.length then
        st.vars ++ [F.abs (F.sub td ((st.curr.getLast?).getD (F.fin 0)))]
      else st.vars
    ⟨st.lengths, curr', vars'⟩
  else if st.curr.isEmpty then st
  else ⟨st.lengths ++ [st.curr.length], [], st.vars⟩

/-- One step of `Jump::analyze_window` (src/analyze/jump.rs lines 149-168):
as `streamStep`, but a pair is accepted only if additionally the planar
distance between the two notes is at least 120. -/
def jumpStep (expected : F) (st : ScanState) (p : HitObject × HitObject) : ScanState :=
  let td := gapF p
  if F.le (F.div (F.abs (F.sub td expected)) expected) (F.fin (1 / 10))
      && distGate p.1 p.2 then
    let curr' := st.curr ++ [td]
    let vars' :=
      if 1 < curr'.length then
        st.vars ++ [F.abs (F.sub td ((st.curr.getLast?).getD (F.fin 0)))]
      else st.vars
    ⟨st.lengths, curr', vars'⟩
  else if st.curr.isEmpty then st
  else ⟨st.lengths ++ [st.curr.length], [], st.vars⟩

/-- `Stream::analyze_window` (src/analyze/stream.rs lines 129-160): scan the
consecutive pairs and flush the final run in progress. -/
def streamAnalyzeWindow (window : List HitObject) (expected : F) : List ℕ × List F :=
  let st := (pairsOf window).foldl (streamStep expected) ⟨[], [], []⟩
  (if st.curr.isEmpty then st.lengths else st.lengths ++ [st.curr.length], st.vars)

/-- `Jump::analyze_window` (src/analyze/jump.rs lines 138-176). -/
def jumpAnalyzeWindow (window : List HitObject) (expected : F) : List ℕ × List F :=
  let st := (pairsOf window).foldl (jumpStep expected) ⟨[], [], []⟩
  (if st.curr.isEmpty then st.lengths else st.lengths ++ [st.curr.length], st.vars)

/-- The per-window BPM-consistency metric shared by both analyzers
(src/analyze/jump.rs lines 97-102, src/analyze/stream.rs lines 90-95):
`1 - mean(jitter) / expected_interval`, or `0.0` with no jitter samples. -/
def bpmConsistency (vars : List F) (expected : F) : F :=
  if vars.isEmpty then F.fin 0
  else F.sub (F.fin 1) (F.div (F.div (sumF vars) (F.fin (vars.length : ℚ))) expected)

/-- Jump bucket: `len > 2 && len < 10` (src/analyze/jump.rs line 76). -/
def shortJumpLen (len : ℕ) : Bool := 2 < len && len < 10

/-- Jump bucket: `len >= 10 && len < 20` (src/analyze/jump.rs line 80). -/
def mediumJumpLen (len : ℕ) : Bool := 10 ≤ len && len < 20

/-- Jump bucket: `len >= 20` (src/analyze/jump.rs line 82). -/
def longJumpLen (len : ℕ) : Bool := 20 ≤ len

/-- Stream bucket: `len >= 5 && len < 10` (src/analyze/stream.rs line 70). -/
def shortStreamLen (len : ℕ) : Bool := 5 ≤ len && len < 10

/-- Stream bucket: `len >= 10 && len < 20` (src/analyze/stream.rs line 74). -/
def mediumStreamLen (len : ℕ) : Bool := 10 ≤ len && len < 20

/-- Stream bucket: `len >= 20` (src/analyze/stream.rs line 76). -/
def longStreamLen (len : ℕ) : Bool := 20 ≤ len

/-- `(0..n).step_by(step)`: the multiples of `step` below `n`, ascending. -/
def stepRange (n step : ℕ) : List ℕ := (List.range n).filter (fun i => i % step == 0)

/-- The sliding windows of both analyzers: starts advance by 50, each window
takes at most 200 notes, the final one truncated. -/
def windowsOf (hit_objects : List HitObject) : List (List HitObject) :=
  (stepRange hit_objects.length 50).map (fun ws => (hit_objects.drop ws).take 200)

/-- The mutable accumulators of `Jump::analyze`'s window loop
(src/analyze/jump.rs lines 56-65). -/
structure JumpAgg where
  max_jump_length : ℕ
  peak_jump_density : F
  total_short : ℕ
  total_medium : ℕ
  total_long : ℕ
  overall_bpm_consistency : F
  total_notes_length : ℕ
  total_jumps : ℕ
deriving DecidableEq, Repr

/-- One iteration of `Jump::analyze`'s window loop (src/analyze/jump.rs lines
67-105). -/
def jumpWindowUpd (expected : F) (a : JumpAgg) (window : List HitObject) : JumpAgg :=
  let r := jumpAnalyzeWindow window expected
  let total_notes : ℕ := r.1.foldl (· + ·) 0
  ⟨Nat.max a.max_jump_length (r.1.foldl Nat.max 0),
   F.max a.peak_jump_density (F.div (F.fin (total_notes : ℚ)) (F.fin (window.length : ℚ))),
   a.total_short + r.1.countP shortJumpLen,
   a.total_medium + r.1.countP mediumJumpLen,
   a.total_long + r.1.countP longJumpLen,
   F.max a.overall_bpm_consistency (bpmConsistency r.2 expected),
   a.total_notes_length + total_notes,
   a.total_jumps + r.1.length⟩

/-- `Jump::analyze`'s expected interval: half of the beat length derived from
the estimated BPM, the BPM estimate being fed the last note's end time
(src/analyze/jump.rs lines 45-50). -/
def jumpExpectedInterval (m : Beatmap) : F :=
  F.div (F.mul (F.div (F.fin 60) (bpm m.hit_objects.getLast? m.timing_points)) (F.fin 1000))
    (F.fin 2)

/-- The state of `Jump::analyze`'s accumulators after the whole window loop. -/
def jumpAggregate (m : Beatmap) : JumpAgg :=
  (windowsOf m.hit_objects).foldl (jumpWindowUpd (jumpExpectedInterval m))
    ⟨0, F.fin 0, 0, 0, 0, F.fin 0, 0, 0⟩

/-- `average_jump_length` (src/analyze/jump.rs lines 107-111). -/
def jumpAverageLength (m : Beatmap) : F :=
  let a := jumpAggregate m
  if 0 < a.total_jumps then F.div (F.fin (a.total_notes_length : ℚ)) (F.fin (a.total_jumps : ℚ))
  else F.fin 0

/-- `jump_variety` (src/analyze/jump.rs lines 113-115), with the `max(1, _)`
guard on the denominator. -/
def jumpVariety (m : Beatmap) : F :=
  let a := jumpAggregate m
  F.div (F.fin ((a.total_medium * 2 + a.total_long * 3 : ℕ) : ℚ))
    (F.fin ((Nat.max (a.total_short + a.total_medium + a.total_long) 1 : ℕ) : ℚ))

/-- `long_jump_ratio` (src/analyze/jump.rs line 117): the plain quotient
`total_long_jump_count / total_jumps`, with NO guard on the denominator. -/
def jumpLongFrac (m : Beatmap) : F :=
  let a := jumpAggregate m
  F.div (F.fin (a.total_long : ℚ)) (F.fin (a.total_jumps : ℚ))

/-- The result record of `Jump::analyze` (src/analyze/jump.rs lines 11-20). -/
structure JumpAnalysis where
  overall_confidence : F
  total_jump_count : ℕ
  max_jump_length : ℕ
  short_jumps_count : ℕ
  medium_jumps_count : ℕ
  long_jumps_count : ℕ
  peak_jump_density : F
  bpm_consistency : F
deriving DecidableEq, Repr

/-- `Jump::analyze` (src/analyze/jump.rs lines 44-136). -/
def jumpAnalyze (m : Beatmap) : JumpAnalysis :=
  let a := jumpAggregate m
  let overall_confidence :=
    F.min
      (F.add (F.add (F.add (F.add
        (F.mul a.peak_jump_density (F.fin (2 / 5)))
        (F.mul a.overall_bpm_consistency (F.fin (1 / 5))))
        (F.mul (jumpVariety m) (F.fin (7 / 20))))
        (F.mul (jumpLongFrac m) (F.fin (9 / 20))))
        (F.mul (F.min (F.div (jumpAverageLength m) (F.fin 3)) (F.fin 1)) (F.fin (3 / 10))))
      (F.fin 1)
  ⟨overall_confidence, a.total_jumps, a.max_jump_length, a.total_short, a.total_medium,
   a.total_long, a.peak_jump_density, a.overall_bpm_consistency⟩

/-- The mutable accumulators of `Stream::analyze`'s window loop
(src/analyze/stream.rs lines 52-59). -/
structure StreamAgg where
  max_stream_length : ℕ
  total_short : ℕ
  total_medium : ℕ
  total_long : ℕ
  peak_stream_density : F
  overall_bpm_consistency : F
  total_stream_length : ℕ
  total_streams : ℕ
deriving DecidableEq, Repr

/-- One iteration of `Stream::analyze`'s window loop (src/analyze/stream.rs
lines 61-97). -/
def streamWindowUpd (expected : F) (a : StreamAgg) (window : List HitObject) : StreamAgg :=
  let r := streamAnalyzeWindow window expected
  let total_notes : ℕ := r.1.foldl (· + ·) 0
  ⟨Nat.max a.max_stream_length (r.1.foldl Nat.max 0),
   a.total_short + r.1.countP shortStreamLen,
   a.total_medium + r.1.countP mediumStreamLen,
   a.total_long + r.1.countP longStreamLen,
   F.max a.peak_stream_density (F.div (F.fin (total_notes : ℚ)) (F.fin (window.length : ℚ))),
   F.max a.overall_bpm_consistency (bpmConsistency r.2 expected),
   a.total_stream_length + total_notes,
   a.total_streams + r.1.length⟩

/-- `Stream::analyze`'s expected interval: a quarter of the beat length, the
BPM estimate being fed `None` as reference end time (src/analyze/stream.rs
lines 44-46). -/
def streamExpectedInterval (m : Beatmap) : F :=
  F.div (F.mul (F.div (F.fin 60) (bpm none m.timing_points)) (F.fin 1000)) (F.fin 4)

/-- The state of `Stream::analyze`'s accumulators after the whole window
loop. -/
def streamAggregate (m : Beatmap) : StreamAgg :=
  (windowsOf m.hit_objects).foldl (streamWindowUpd (streamExpectedInterval m))
    ⟨0, 0, 0, 0, F.fin 0, F.fin 0, 0, 0⟩

/-- `average_stream_length` (src/analyze/stream.rs lines 99-103). -/
def streamAverageLength (m : Beatmap) : F :=
  let a := streamAggregate m
  if 0 < a.total_streams then
    F.div (F.fin (a.total_stream_length : ℚ)) (F.fin (a.total_streams : ℚ))
  else F.fin 0

/-- `stream_variety` (src/analyze/stream.rs lines 105-107). -/
def streamVariety (m : Beatmap) : F :=
  let a := streamAggregate m
  F.div (F.fin ((a.total_medium * 2 + a.total_long * 3 : ℕ) : ℚ))
    (F.fin ((Nat.max (a.total_short + a.total_medium + a.total_long) 1 : ℕ) : ℚ))

/-- `long_stream_ratio` (src/analyze/stream.rs line 109): guarded by
`total_streams.max(1)`. -/
def streamLongFrac (m : Beatmap) : F :=
  let a := streamAggregate m
  F.div (F.fin (a.total_long : ℚ)) (F.fin ((Nat.max a.total_streams 1 : ℕ) : ℚ))

/-- The result record of `Stream::analyze` (src/analyze/stream.rs lines
11-19). -/
structure StreamAnalysis where
  overall_confidence : F
  short_streams : ℕ
  medium_streams : ℕ
  long_streams : ℕ
  max_stream_length : ℕ
  peak_stream_density : F
  bpm_consistency : F
deriving DecidableEq, Repr

/-- `Stream::analyze` (src/analyze/stream.rs lines 43-127).  Note the
average-run-length term divides by `5.0`. -/
def streamAnalyze (m : Beatmap) : StreamAnalysis :=
  let a := streamAggregate m
  let overall_confidence :=
    F.min
      (F.add (F.add (F.add (F.add
        (F.mul a.peak_stream_density (F.fin (3 / 10)))
        (F.mul a.overall_bpm_consistency (F.fin (1 / 5))))
        (F.mul (streamVariety m) (F.fin (1 / 5))))
        (F.mul (streamLongFrac m) (F.fin (1 / 5))))
        (F.mul (F.min (F.div (streamAverageLength m) (F.fin 5)) (F.fin 1)) (F.fin (1 / 5))))
      (F.fin 1)
  ⟨overall_confidence, a.total_short, a.total_medium, a.total_long, a.max_stream_length,
   a.peak_stream_density, a.overall_bpm_consistency⟩

/-- The stream confidence formula as the claim states it (weights
0.3/0.2/0.2/0.2/0.2 and the average-run-length term `min(1.0, avg/3)`),
written from the spec's words for comparison with the code. -/
def streamConfidenceClaimed (density consistency variety longShare avg : F) : F :=
  F.min (F.fin 1)
    (F.add (F.add (F.add (F.add
      (F.mul density (F.fin (3 / 10)))
      (F.mul consistency (F.fin (1 / 5))))
      (F.mul variety (F.fin (1 / 5))))
      (F.mul longShare (F.fin (1 / 5))))
      (F.mul (F.min (F.fin 1) (F.div avg (F.fin 3))) (F.fin (1 / 5))))

/-- The stream confidence formula as the code computes it: the
average-run-length term is `min(avg/5, 1.0)` (src/analyze/stream.rs line
115). -/
def streamConfidenceAmended (density consistency variety longShare avg : F) : F :=
  F.min
    (F.add (F.add (F.add (F.add
      (F.mul density (F.fin (3 / 10)))
      (F.mul consistency (F.fin (1 / 5))))
      (F.mul variety (F.fin (1 / 5))))
      (F.mul longShare (F.fin (1 / 5))))
      (F.mul (F.min (F.div avg (F.fin 5)) (F.fin 1)) (F.fin (1 / 5))))
    (F.fin 1)

/-! ### Helper lemmas -/

/-- `x.min(1.0)` is at most `1.0` in the IEEE order, whatever `x` is
(including NaN, where Rust's `min` returns the other argument). -/
lemma minOneLe (a : F) : F.le (F.min a (F.fin 1)) (F.fin 1) = true := by
  cases a <;> simp [F.min, F.le]

lemma getLastRep (n : ℕ) (a : F) : (List.replicate (n + 1) a).getLast? = some a := by
  induction n with
  | zero => rfl
  | succ n ih =>
      rw [List.replicate_succ, List.replicate_succ] at *
      cases h : List.replicate n a <;> simp_all [List.getLast?_cons_cons]

lemma foldAddZero (n : ℕ) : ∀ q : ℚ,
    List.foldl F.add (F.fin q) (List.replicate n (F.fin 0)) = F.fin q := by
  induction n with
  | zero => intro q; rfl
  | succ n ih =>
      intro q
      rw [List.replicate_succ, List.foldl_cons]
      have : F.add (F.fin q) (F.fin 0) = F.fin q := by simp [F.add]
      rw [this, ih]

lemma sumFRepZero (n : ℕ) : sumF (List.replicate n (F.fin 0)) = F.fin 0 :=
  foldAddZero n 0

/-- A gap equal to a positive expected interval passes the 10% tolerance
test. -/
lemma acceptCond (e : ℚ) (he : 0 < e) :
    F.le (F.div (F.abs (F.sub (F.fin e) (F.fin e))) (F.fin e)) (F.fin (1 / 10)) = true := by
  simp [F.sub, F.abs, F.div, F.le, he.ne']

/-- A gap of one and a half times a positive expected interval fails the 10%
tolerance test. -/
lemma outlierCond (e : ℚ) (he : 0 < e) :
    F.le (F.div (F.abs (F.sub (F.fin (3 * e / 2)) (F.fin e))) (F.fin e)) (F.fin (1 / 10)) =
      false := by
  have h1 : 3 * e / 2 - e = e / 2 := by ring
  have h2 : |e / 2| = e / 2 := abs_of_pos (by positivity)
  have h3 : e / 2 / e = 1 / 2 := by
    rw [div_div, mul_comm, ← div_div, div_self he.ne']
  simp [F.sub, F.abs, F.div, F.le, he.ne', h1, h2, h3]
  norm_num

/-- An accepted step extends a run of equal gaps and records a zero jitter
sample unless the run was empty. -/
lemma streamStepAcc (e : ℚ) (he : 0 < e) (L : List ℕ) (V : List F) (m : ℕ)
    (p : HitObject × HitObject) (hp : gapF p = F.fin e) :
    streamStep (F.fin e) ⟨L, List.replicate m (F.fin e), V⟩ p =
      ⟨L, List.replicate (m + 1) (F.fin e), if m = 0 then V else V ++ [F.fin 0]⟩ := by
  simp only [streamStep, hp, acceptCond e he, if_true]
  rw [← List.replicate_succ']
  cases m with
  | zero => simp
  | succ m =>
      simp only [List.length_replicate]
      rw [if_pos (by omega), if_neg (Nat.succ_ne_zero m), getLastRep]
      simp [F.sub, F.abs]

/-- Scanning a block of accepted equal gaps from a nonempty run in progress
appends one zero jitter sample per gap. -/
lemma streamFoldAcc (e : ℚ) (he : 0 < e) :
    ∀ (ps : List (HitObject × HitObject)), (∀ p ∈ ps, gapF p = F.fin e) →
    ∀ (L : List ℕ) (V : List F) (m : ℕ), 0 < m →
    ps.foldl (streamStep (F.fin e)) ⟨L, List.replicate m (F.fin e), V⟩ =
      ⟨L, List.replicate (m + ps.length) (F.fin e), V ++ List.replicate ps.length (F.fin 0)⟩ := by
  intro ps
  induction ps with
  | nil => intro h L V m hm; simp
  | cons p ps ih =>
      intro h L V m hm
      rw [List.foldl_cons, streamStepAcc e he L V m p (h p (by simp)),
        if_neg hm.ne', ih (fun q hq => h q (by simp [hq])) L (V ++ [F.fin 0]) (m + 1) (by omega)]
      rw [List.append_assoc, List.singleton_append, ← List.replicate_succ]
      have hc : m + 1 + ps.length = m + (p :: ps).length := by simp; omega
      have hv : ps.length + 1 = (p :: ps).length := by simp
      rw [hc, hv]

/-- Scanning a block of accepted equal gaps from an empty run in progress
yields a run of the block's length and one zero jitter sample per gap after
the first. -/
lemma streamFoldRun (e : ℚ) (he : 0 < e) :
    ∀ (ps : List (HitObject × HitObject)), (∀ p ∈ ps, gapF p = F.fin e) →
    ∀ (L : List ℕ) (V : List F),
    ps.foldl (streamStep (F.fin e)) ⟨L, [], V⟩ =
      ⟨L, List.replicate ps.length (F.fin e),
        V ++ List.replicate (ps.length - 1) (F.fin 0)⟩ := by
  intro ps h L V
  cases ps with
  | nil => simp
  | cons p ps =>
      have h0 : streamStep (F.fin e) ⟨L, [], V⟩ p =
          ⟨L, List.replicate 1 (F.fin e), V⟩ := by
        have := streamStepAcc e he L V 0 p (h p (by simp))
        simpa using this
      rw [List.foldl_cons, h0,
        streamFoldAcc e he ps (fun q hq => h q (by simp [hq])) L V 1 (by omega)]
      simp
      omega

/-- A pair failing the tolerance test flushes a nonempty run in progress. -/
lemma streamStepRej (x : F) (st : ScanState) (p : HitObject × HitObject)
    (hc : F.le (F.div (F.abs (F.sub (gapF p) x)) x) (F.fin (1 / 10)) = false)
    (hne : st.curr ≠ []) :
    streamStep x st p = ⟨st.lengths ++ [st.curr.length], [], st.vars⟩ := by
  simp only [streamStep, hc, Bool.false_eq_true, if_false]
  rw [if_neg (by simpa using hne)]

lemma pairsConsCons (a b : HitObject) (l : List HitObject) :
    pairsOf (a :: b :: l) = (a, b) :: pairsOf (b :: l) := rfl

lemma pairsSingle (a : HitObject) : pairsOf [a] = [] := rfl

/-- Decomposition of the consecutive pairs of a concatenation: the pairs of
each part, plus the bridging pair. -/
lemma pairsAppend : ∀ (l1 : List HitObject) (a b : HitObject) (l2 : List HitObject),
    pairsOf ((a :: l1) ++ b :: l2) =
      pairsOf (a :: l1) ++ ((a :: l1).getLastD a, b) :: pairsOf (b :: l2) := by
  intro l1
  induction l1 with
  | nil => intro a b l2; simp [pairsConsCons, pairsSingle]
  | cons c l1 ih =>
      intro a b l2
      have h2 : pairsOf ((a :: c :: l1) ++ b :: l2) =
          (a, c) :: pairsOf ((c :: l1) ++ b :: l2) := rfl
      rw [h2, ih c b l2, pairsConsCons]
      simp [List.getLastD_cons]
      have h3 : ((c :: l1).getLast?).isSome = true :=
        List.getLast?_isSome.mpr (by simp)
      obtain ⟨x, hx⟩ := Option.isSome_iff_exists.mp h3
      simp [hx]

lemma pairsLen (l : List HitObject) : (pairsOf l).length = l.length - 1 := by
  cases l with
  | nil => rfl
  | cons a l => simp [pairsOf, List.length_zip]

/-- When the distance gate passes, a jump scan step behaves exactly like a
stream scan step. -/
lemma jumpStepGate (x : F) (st : ScanState) (p : HitObject × HitObject)
    (hg : distGate p.1 p.2 = true) : jumpStep x st p = streamStep x st p := by
  simp [jumpStep, streamStep, hg]

lemma jumpFoldGate (x : F) :
    ∀ (ps : List (HitObject × HitObject)), (∀ p ∈ ps, distGate p.1 p.2 = true) →
    ∀ st : ScanState, ps.foldl (jumpStep x) st = ps.foldl (streamStep x) st := by
  intro ps
  induction ps with
  | nil => intro h st; rfl
  | cons p ps ih =>
      intro h st
      rw [List.foldl_cons, List.foldl_cons, jumpStepGate x st p (h p (by simp)),
        ih (fun q hq => h q (by simp [hq]))]

/-- When every consecutive pair passes the distance gate, the jump window
scan coincides with the stream window scan. -/
lemma jumpWindowGate (l : List HitObject) (x : F)
    (hg : ∀ p ∈ pairsOf l, distGate p.1 p.2 = true) :
    jumpAnalyzeWindow l x = streamAnalyzeWindow l x := by
  simp only [jumpAnalyzeWindow, streamAnalyzeWindow, jumpFoldGate x (pairsOf l) hg]

/-- Division of finite values with a nonzero denominator is exact rational
division. -/
lemma divFinNe (a b : ℚ) (hb : b ≠ 0) : F.div (F.fin a) (F.fin b) = F.fin (a / b) := by
  simp [F.div, hb]

/-! ### Concrete inputs used by counterexamples and witnesses -/

/-- A beatmap with no hit objects and no timing points. -/
def emptyMap : Beatmap := ⟨[], []⟩

/-- One timing point of beat length 100 ms (600 BPM, expected stream interval
25 ms) and four notes 25 ms apart: a single run of 3 accepted gaps. -/
def c5map : Beatmap :=
  ⟨[⟨F.fin 0, F.fin 0, 0, 0⟩, ⟨F.fin 25, F.fin 25, 0, 0⟩,
    ⟨F.fin 50, F.fin 50, 0, 0⟩, ⟨F.fin 75, F.fin 75, 0, 0⟩],
   [⟨F.fin 0, F.fin 100⟩]⟩

/-- Three notes 100 ms apart, consecutive positions 200 units apart. -/
def c8list : List HitObject :=
  [⟨F.fin 0, F.fin 0, 0, 0⟩, ⟨F.fin 100, F.fin 100, 200, 0⟩, ⟨F.fin 200, F.fin 200, 0, 0⟩]

/-- Two notes 100 ms apart. -/
def c8pair : List HitObject :=
  [⟨F.fin 0, F.fin 0, 0, 0⟩, ⟨F.fin 100, F.fin 100, 200, 0⟩]

def c9n0 : HitObject := ⟨F.fin 0, F.fin 0, 0, 0⟩
def c9n1 : HitObject := ⟨F.fin 100, F.fin 100, 200, 0⟩
def c9n2 : HitObject := ⟨F.fin 200, F.fin 200, 0, 0⟩
def c9n3 : HitObject := ⟨F.fin 350, F.fin 350, 200, 0⟩
def c9n4 : HitObject := ⟨F.fin 450, F.fin 450, 0, 0⟩
def c9n5 : HitObject := ⟨F.fin 550, F.fin 550, 200, 0⟩

/-- Two timing points (100 ms from time 0, 50 ms from time 1000) and one note
ending at 3000 ms: the 50 ms segment accumulates the longer duration. -/
def c10mapA : Beatmap :=
  ⟨[⟨F.fin 0, F.fin 3000, 0, 0⟩], [⟨F.fin 0, F.fin 100⟩, ⟨F.fin 1000, F.fin 50⟩]⟩

/-- Same timing points as `c10mapA` but the note ends at 1200 ms: the 100 ms
segment accumulates the longer duration. -/
def c10mapB : Beatmap :=
  ⟨[⟨F.fin 0, F.fin 1200, 0, 0⟩], [⟨F.fin 0, F.fin 100⟩, ⟨F.fin 1000, F.fin 50⟩]⟩

/-! ### Claim theorems -/

/-- C1: for the empty beatmap, `Stream::analyze` returns all-zero counts,
zero peak density, zero max run length and confidence exactly 0.0, as the
claim states; but `Jump::analyze` returns `overall_confidence = 1.0`: with
zero runs `long_jump_ratio = 0.0/0.0 = NaN` (no `max(1, _)` guard in
src/analyze/jump.rs line 117), and Rust's `min(NaN, 1.0)` returns `1.0`. -/
theorem c1_empty_analysis :
    streamAnalyze emptyMap = ⟨F.fin 0, 0, 0, 0, 0, F.fin 0, F.fin 0⟩
    ∧ (streamAggregate emptyMap).total_streams = 0
    ∧ jumpAnalyze emptyMap = ⟨F.fin 1, 0, 0, 0, 0, 0, F.fin 0, F.fin 0⟩ := by
  with_unfolding_all decide

/-- C2: the long-run share is guarded by `max(1, total)` only in
`Stream::analyze` (it is always a finite rational); `Jump::analyze` divides by
the unguarded `total_jumps` (src/analyze/jump.rs line 117), which is `0/0 =
NaN` whenever no runs were found, e.g. on the empty beatmap. -/
theorem c2_long_share_guard :
    jumpLongFrac emptyMap = F.nan
    ∧ (∀ m : Beatmap, ∃ q : ℚ, streamLongFrac m = F.fin q) := by
  constructor
  · with_unfolding_all decide
  · intro m
    refine ⟨(((streamAggregate m).total_long : ℚ) /
      ((Nat.max (streamAggregate m).total_streams 1 : ℕ) : ℚ)), ?_⟩
    have hpos : 0 < Nat.max (streamAggregate m).total_streams 1 :=
      Nat.lt_of_lt_of_le Nat.one_pos (Nat.le_max_right _ _)
    have hden : ((Nat.max (streamAggregate m).total_streams 1 : ℕ) : ℚ) ≠ 0 := by
      exact_mod_cast hpos.ne'
    exact divFinNe _ _ hden

/-- C3 counterexample: the claim's jump thresholds say a run of 3 gaps is
below the minimum of 4 and falls in no bucket, and the stream thresholds say
5 gaps is below the minimum of 6; the code counts 3 gaps as a short jump and
5 gaps as a short stream. -/
theorem c3_counterexample :
    shortJumpLen 3 = true ∧ ¬ (4 ≤ 3) ∧ shortStreamLen 5 = true ∧ ¬ (6 ≤ 5) := by
  decide

/-- C3 amended: the code's buckets are `[3,10)` / `[10,20)` / `≥20` gaps for
jumps and `[5,10)` / `[10,20)` / `≥20` gaps for streams; runs of fewer than 3
(jump) or 5 (stream) gaps fall in no bucket, and the buckets partition. -/
theorem c3_bucket_bounds : ∀ len : ℕ,
    (shortJumpLen len = true ↔ 3 ≤ len ∧ len < 10)
    ∧ (mediumJumpLen len = true ↔ 10 ≤ len ∧ len < 20)
    ∧ (longJumpLen len = true ↔ 20 ≤ len)
    ∧ (shortStreamLen len = true ↔ 5 ≤ len ∧ len < 10)
    ∧ (mediumStreamLen len = true ↔ 10 ≤ len ∧ len < 20)
    ∧ (longStreamLen len = true ↔ 20 ≤ len)
    ∧ (len < 3 ↔
        ¬ (shortJumpLen len = true ∨ mediumJumpLen len = true ∨ longJumpLen len = true))
    ∧ (len < 5 ↔
        ¬ (shortStreamLen len = true ∨ mediumStreamLen len = true ∨
           longStreamLen len = true)) := by
  intro len
  simp [shortJumpLen, mediumJumpLen, longJumpLen, shortStreamLen, mediumStreamLen,
    longStreamLen]
  omega

/-- C4 counterexample: for the empty tempo timeline (and no reference end
time) `bpm` returns positive infinity, not 1.0: the accumulated map is empty,
the representative beat length defaults to 0, and `60000.0 / 0.0 = +inf`
passes the `.max(1.0)` floor unchanged. -/
theorem c4_counterexample : bpm none [] = F.inf ∧ F.inf ≠ F.fin 1 := by
  with_unfolding_all decide

/-- C4 amended: for an empty tempo timeline `bpm` returns `+inf` (60000/0),
for every optional reference end time. -/
theorem c4_empty_timeline_bpm : ∀ o : Option HitObject, bpm o [] = F.inf := by
  intro o
  cases o <;> simp [bpm, maxByVal, F.div, F.max]

/-- C6 counterexample: a single 120000 ms tempo segment gives
`60000 / beat_length = 1/2`, but `bpm` floors the result at 1.0 and returns
1.0, not `60000 / beat_length`. -/
theorem c6_counterexample :
    bpm none [⟨F.fin 0, F.fin 120000⟩] = F.fin 1
    ∧ F.div (F.fin 60000) (F.fin 120000) = F.fin (1 / 2)
    ∧ F.fin (1 / 2) ≠ F.fin 1 := by
  with_unfolding_all decide

/-- C6 amended: for a single-segment timeline `bpm` returns
`max(1.0, 60000 / q)` where `q` is the segment's beat length quantized to 3
decimal places, regardless of note content and reference end time. -/
theorem c6_single_segment_bpm : ∀ (o : Option HitObject) (t bl : F),
    bpm o [⟨t, bl⟩] = F.max (F.div (F.fin 60000) (quantize bl)) (F.fin 1) := by
  intro o t bl
  cases o <;> simp [bpm, bldAdd, mapUpdate, maxByVal]

/-- C7: the overall confidence of both analyzers is at most 1.0 for every
input: the final `.min(1.0)` caps every value, and returns exactly 1.0 when
its argument is NaN. -/
theorem c7_confidence_upper_bound : ∀ m : Beatmap,
    F.le (jumpAnalyze m).overall_confidence (F.fin 1) = true
    ∧ F.le (streamAnalyze m).overall_confidence (F.fin 1) = true := by
  intro m
  exact ⟨minOneLe _, minOneLe _⟩

/-- C5 counterexample: on `c5map` the actual stream confidence is 109/200
(= 0.545, average-run-length term `min(1, 3/5) * 0.2`), while the claim's
formula with `min(1, average/3)` yields 5/8 (= 0.625) on the very same
component values, which are also checked here. -/
theorem c5_counterexample :
    (streamAnalyze c5map).overall_confidence = F.fin (109 / 200)
    ∧ (streamAggregate c5map).peak_stream_density = F.fin (3 / 4)
    ∧ (streamAggregate c5map).overall_bpm_consistency = F.fin 1
    ∧ streamVariety c5map = F.fin 0
    ∧ streamLongFrac c5map = F.fin 0
    ∧ streamAverageLength c5map = F.fin 3
    ∧ streamConfidenceClaimed (F.fin (3 / 4)) (F.fin 1) (F.fin 0) (F.fin 0) (F.fin 3) =
        F.fin (5 / 8)
    ∧ F.fin (109 / 200) ≠ F.fin (5 / 8) := by
  with_unfolding_all decide

/-- C5 amended: `Stream::analyze` computes the overall confidence with the
claimed weights, but the average-run-length term is `min(average/5, 1.0)`
(division by 5, not by 3 as in the jump variant). -/
theorem c5_stream_confidence_formula : ∀ m : Beatmap,
    (streamAnalyze m).overall_confidence =
      streamConfidenceAmended (streamAggregate m).peak_stream_density
        (streamAggregate m).overall_bpm_consistency (streamVariety m) (streamLongFrac m)
        (streamAverageLength m) := by
  intro m
  rfl

/-- C8 counterexample: for N = 2 equally spaced notes (gap exactly the
expected interval) the scan yields one run of length 1 with no jitter
samples, and the derived `bpm_consistency` is the zero fallback, not 1.0. -/
theorem c8_counterexample :
    streamAnalyzeWindow c8pair (F.fin 100) = ([1], [])
    ∧ bpmConsistency [] (F.fin 100) = F.fin 0
    ∧ F.fin 0 ≠ F.fin 1 := by
  with_unfolding_all decide

/-- C8 amended: for N ≥ 2 notes equally spaced by exactly the (positive)
expected interval — with, for the jump variant, every consecutive pair at
planar distance ≥ 120 — one scan yields exactly one run of N−1 gaps and all
N−2 jitter samples equal to 0; the derived `bpm_consistency` equals 1.0 for
N ≥ 3 (for N = 2 there are no jitter samples and it is 0.0). -/
theorem c8_regular_run (e : ℚ) (he : 0 < e) (l : List HitObject) (hn : 2 ≤ l.length)
    (hgap : ∀ p ∈ pairsOf l, gapF p = F.fin e)
    (hdist : ∀ p ∈ pairsOf l, distGate p.1 p.2 = true) :
    streamAnalyzeWindow l (F.fin e) =
      ([l.length - 1], List.replicate (l.length - 2) (F.fin 0))
    ∧ jumpAnalyzeWindow l (F.fin e) =
      ([l.length - 1], List.replicate (l.length - 2) (F.fin 0))
    ∧ (3 ≤ l.length →
        bpmConsistency (List.replicate (l.length - 2) (F.fin 0)) (F.fin e) = F.fin 1) := by
  have hplen : (pairsOf l).length = l.length - 1 := pairsLen l
  have hs : streamAnalyzeWindow l (F.fin e) =
      ([l.length - 1], List.replicate (l.length - 2) (F.fin 0)) := by
    unfold streamAnalyzeWindow
    rw [streamFoldRun e he (pairsOf l) hgap [] [], hplen]
    have h2 : l.length - 1 - 1 = l.length - 2 := by omega
    obtain ⟨k, hk⟩ : ∃ k, l.length - 1 = k + 1 := ⟨l.length - 2, by omega⟩
    rw [h2, hk, List.replicate_succ]
    simp [← hk]
  refine ⟨hs, ?_, ?_⟩
  · rw [jumpWindowGate l (F.fin e) hdist]
    exact hs
  · intro h3
    obtain ⟨k, hk⟩ : ∃ k, l.length - 2 = k + 1 := ⟨l.length - 3, by omega⟩
    have hkq : ((k + 1 : ℕ) : ℚ) ≠ 0 := by exact_mod_cast (Nat.succ_ne_zero k)
    rw [hk]
    unfold bpmConsistency
    rw [if_neg (by simp)]
    rw [sumFRepZero, List.length_replicate]
    rw [divFinNe 0 _ hkq, zero_div, divFinNe 0 e he.ne', zero_div]
    simp [F.sub]

/-- C8 witness: three notes 100 ms apart, 200 units apart, with expected
interval 100: one run of 2 gaps, one zero jitter sample, consistency 1.0. -/
theorem c8_witness :
    (0 : ℚ) < 100 ∧ 2 ≤ c8list.length
    ∧ streamAnalyzeWindow c8list (F.fin 100) = ([2], [F.fin 0])
    ∧ jumpAnalyzeWindow c8list (F.fin 100) = ([2], [F.fin 0])
    ∧ bpmConsistency [F.fin 0] (F.fin 100) = F.fin 1 := by
  have h := c8_regular_run 100 (by norm_num) c8list (by decide)
    (by with_unfolding_all decide) (by with_unfolding_all decide)
  exact ⟨by norm_num, by decide, h.1, h.2.1, h.2.2 (by decide)⟩

/-- C9: in a sequence whose gaps all equal a positive expected interval
except for one interior gap of one and a half times that interval, the scan
produces exactly two runs — the gaps before the outlier and the gaps after it
— and the outlier gap belongs to neither (the run lengths sum to one less
than the number of gaps).  Holds for both the stream scan and, when every
consecutive pair passes the distance gate, the jump scan. -/
theorem c9_outlier_split (e : ℚ) (he : 0 < e) (a b : HitObject)
    (l1 l2 : List HitObject) (hl1 : l1 ≠ []) (hl2 : l2 ≠ [])
    (h1 : ∀ p ∈ pairsOf (a :: l1), gapF p = F.fin e)
    (h2 : ∀ p ∈ pairsOf (b :: l2), gapF p = F.fin e)
    (hx : gapF ((a :: l1).getLastD a, b) = F.fin (3 * e / 2))
    (hdist : ∀ p ∈ pairsOf ((a :: l1) ++ b :: l2), distGate p.1 p.2 = true) :
    streamAnalyzeWindow ((a :: l1) ++ b :: l2) (F.fin e) =
      ([l1.length, l2.length],
        List.replicate (l1.length - 1) (F.fin 0) ++ List.replicate (l2.length - 1) (F.fin 0))
    ∧ jumpAnalyzeWindow ((a :: l1) ++ b :: l2) (F.fin e) =
      ([l1.length, l2.length],
        List.replicate (l1.length - 1) (F.fin 0) ++
          List.replicate (l2.length - 1) (F.fin 0)) := by
  have hp1 : (pairsOf (a :: l1)).length = l1.length := by
    rw [pairsLen]; simp
  have hp2 : (pairsOf (b :: l2)).length = l2.length := by
    rw [pairsLen]; simp
  have hl1p : 0 < l1.length := List.length_pos.mpr hl1
  have hl2p : 0 < l2.length := List.length_pos.mpr hl2
  have hs : streamAnalyzeWindow ((a :: l1) ++ b :: l2) (F.fin e) =
      ([l1.length, l2.length],
        List.replicate (l1.length - 1) (F.fin 0) ++
          List.replicate (l2.length - 1) (F.fin 0)) := by
    unfold streamAnalyzeWindow
    rw [pairsAppend l1 a b l2, List.foldl_append, List.foldl_cons,
      streamFoldRun e he (pairsOf (a :: l1)) h1 [] [], hp1]
    have hrej : streamStep (F.fin e)
        ⟨[], List.replicate l1.length (F.fin e),
          [] ++ List.replicate (l1.length - 1) (F.fin 0)⟩ ((a :: l1).getLastD a, b) =
        ⟨[] ++ [(List.replicate l1.length (F.fin e)).length], [],
          [] ++ List.replicate (l1.length - 1) (F.fin 0)⟩ := by
      refine streamStepRej (F.fin e) _ _ ?_ ?_
      · rw [hx]
        exact outlierCond e he
      · simp [hl1p.ne']
    rw [hrej, streamFoldRun e he (pairsOf (b :: l2)) h2 _ _, hp2]
    obtain ⟨k, hk⟩ : ∃ k, l2.length = k + 1 := ⟨l2.length - 1, by omega⟩
    rw [hk, List.replicate_succ]
    simp [← hk]
  refine ⟨hs, ?_⟩
  rw [jumpWindowGate _ (F.fin e) hdist]
  exact hs

/-- C9 witness: notes at 0, 100, 200, 350, 450, 550 ms (expected interval
100 ms, the 200→350 gap is 150 ms = 1.5×), positions alternating 200 units
apart: two runs of 2 gaps each, for both scans. -/
theorem c9_witness :
    (0 : ℚ) < 100
    ∧ streamAnalyzeWindow ((c9n0 :: [c9n1, c9n2]) ++ c9n3 :: [c9n4, c9n5]) (F.fin 100) =
        ([2, 2], [F.fin 0, F.fin 0])
    ∧ jumpAnalyzeWindow ((c9n0 :: [c9n1, c9n2]) ++ c9n3 :: [c9n4, c9n5]) (F.fin 100) =
        ([2, 2], [F.fin 0, F.fin 0]) := by
  have h := c9_outlier_split 100 (by norm_num) c9n0 c9n3 [c9n1, c9n2] [c9n4, c9n5]
    (by decide) (by decide)
    (by with_unfolding_all decide) (by with_unfolding_all decide)
    (by with_unfolding_all decide) (by with_unfolding_all decide)
  exact ⟨by norm_num, h.1, h.2⟩

/-- C10: `Stream::analyze` calls the BPM estimator with `None` as reference
end time (src/analyze/stream.rs line 44), so its expected interval is a
function of the timing points alone: two beatmaps with identical timing
points and arbitrary hit objects get the same expected stream interval.
`Jump::analyze` passes the last note's end time, and indeed derives different
expected intervals on `c10mapA`/`c10mapB`, which share their timing points
and differ only in hit objects. -/
theorem c10_stream_interval_independent :
    (∀ (tps : List TimingPoint) (h1 h2 : List HitObject),
      streamExpectedInterval ⟨h1, tps⟩ = streamExpectedInterval ⟨h2, tps⟩)
    ∧ c10mapA.timing_points = c10mapB.timing_points
    ∧ jumpExpectedInterval c10mapA = F.fin 25
    ∧ jumpExpectedInterval c10mapB = F.fin 50
    ∧ F.fin (25 : ℚ) ≠ F.fin 50 := by
  refine ⟨fun tps h1 h2 => rfl, rfl, ?_, ?_, ?_⟩
  · with_unfolding_all decide
  · with_unfolding_all decide
  · with_unfolding_all decide

end Osu
